import Mathlib

/-!
Verification of the jarvis_arduino_bridge runtime engine against its
natural-language specification.

This file is a shallow embedding of the Python sources under `app/`:
pure helpers are translated to Lean functions, the stateful engine loops
(`AppService._restore_pins`, `_mqtt_commands_worker`, `_digital_poll_worker`,
`_analog_poll_worker`) become explicit state-passing step functions that
record their externally visible I/O (serial writes, broker publishes,
state-store saves) as an event list, and fallible Python calls are modelled
with `Option`/`Except`.  Machine integers are `Nat`/`Int`; Python byte
strings are `List Nat`.
-/

/-! ### app/utils.py -/

/-- `utils.hi_byte`: `(val >> 8) & 0xFF`. -/
def hi_byte (val : Nat) : Nat := (val >>> 8) &&& 0xFF

/-- `utils.lo_byte`: `val & 0xFF`. -/
def lo_byte (val : Nat) : Nat := val &&& 0xFF

/-- `utils.u16_from_bytes`: a two-byte big-endian decode; `ValueError`
(raised when the length is not 2) is modelled as `none`. -/
def u16_from_bytes : List Nat → Option Nat
  | [b0, b1] => some ((b0 <<< 8) ||| b1)
  | _ => none

/-- `utils.on_off`. -/
def on_off (val : Bool) : String := if val then "ON" else "OFF"

/-! ### Python `str`/`int` on integers

`save_p_states` renders dictionary keys with `str(k)` and `load_p_states`
coerces them back with `int(k)`; the command worker parses the pin number
of a topic with `int(...)` and renders topics with f-strings.  We model
Python `str` on `int` as the decimal representation (digits are produced
least-significant first with an explicit fuel argument for structural
termination, then reversed) and Python `int` on `str` as an optional sign
followed by at least one decimal digit, with surrounding whitespace
stripped.  (Python's `int` also accepts underscores between digits and
non-ASCII digits; those never arise here.) -/

/-- Decimal digits of `n`, least significant first; `fuel ≥ n` suffices. -/
def natDigitsRev (fuel n : Nat) : List Nat :=
  match fuel with
  | 0 => []
  | f + 1 => if n = 0 then [] else n % 10 :: natDigitsRev f (n / 10)

/-- The character list of Python `str(n)` for a natural `n`. -/
def pyStrNatChars (n : Nat) : List Char :=
  if n = 0 then ['0'] else ((natDigitsRev n n).map Nat.digitChar).reverse

/-- Python `str(i)` for an integer `i`. -/
def pyStrInt (i : Int) : String :=
  if i < 0 then "-" ++ (pyStrNatChars i.natAbs).asString
  else (pyStrNatChars i.natAbs).asString

/-- Value of one ASCII decimal digit. -/
def digitVal (c : Char) : Option Nat :=
  if 48 ≤ c.toNat ∧ c.toNat ≤ 57 then some (c.toNat - 48) else none

/-- Left-to-right accumulation of decimal digits; `none` on a non-digit. -/
def parseDigitsFrom : Nat → List Char → Option Nat
  | acc, [] => some acc
  | acc, c :: cs =>
    match digitVal c with
    | some d => parseDigitsFrom (acc * 10 + d) cs
    | none => none

/-- Strip leading and trailing whitespace characters. -/
def pyStripChars (l : List Char) : List Char :=
  ((l.dropWhile Char.isWhitespace).reverse.dropWhile Char.isWhitespace).reverse

/-- Python `s.strip()` (whitespace). -/
def pyStrip (s : String) : String := (pyStripChars s.toList).asString

/-- Python `s.upper()` (ASCII, the only characters arising here). -/
def pyUpper (s : String) : String := (s.toList.map Char.toUpper).asString

/-- Python `s.lower()` (ASCII, the only characters arising here). -/
def pyLower (s : String) : String := (s.toList.map Char.toLower).asString

/-- `utils.as_bool`: lowercased, trimmed membership test against the truthy
and falsy sets; the `ValueError` raised on anything else is modelled as
`none`. -/
def as_bool (on_off : String) : Option Bool :=
  let s := pyLower (pyStrip on_off)
  if s = "1" ∨ s = "on" ∨ s = "true" ∨ s = "high" then some true
  else if s = "0" ∨ s = "off" ∨ s = "false" ∨ s = "low" then some false
  else none

/-- Python `s.split(sep)` for a one-character separator. -/
def pySplit (sep : Char) : List Char → List (List Char)
  | [] => [[]]
  | c :: cs =>
    match pySplit sep cs with
    | h :: t => if c = sep then [] :: h :: t else (c :: h) :: t
    | [] => [[c]]

/-- The sign-and-digits shape accepted by Python `int` after stripping. -/
def pyIntOfChars : List Char → Option Int
  | [] => none
  | c :: cs =>
    if c = '-' then
      if cs = [] then none else (parseDigitsFrom 0 cs).map (fun n => -(n : Int))
    else if c = '+' then
      if cs = [] then none else (parseDigitsFrom 0 cs).map (fun n => (n : Int))
    else (parseDigitsFrom 0 (c :: cs)).map (fun n => (n : Int))

/-- Python `int(s)` on a string: `none` models the `ValueError` raised on a
malformed literal. -/
def pyInt? (s : String) : Option Int :=
  pyIntOfChars (pyStripChars s.toList)

/-! ### app/arduino.py — the serial transactor's frame -/

/-- `arduino.START_FLAG`. -/
def START_FLAG : Nat := 222

/-- The five-byte request frame built by `ArduinoClient._txrx`:
`bytes((START_FLAG, cmd[0], hi_byte(cval), lo_byte(cval), cval2 & 0xFF))`. -/
def txrx_payload (cmd cval cval2 : Nat) : List Nat :=
  [START_FLAG, cmd, hi_byte cval, lo_byte cval, cval2 &&& 0xFF]

/-- `ArduinoClient.digital_write` sends `cmd = b'P'` (byte 80). -/
def digital_write_payload (pin state : Nat) : List Nat :=
  txrx_payload 80 pin state

/-- `ArduinoClient.digital_read` sends `cmd = b'S'` (byte 83), arg 0. -/
def digital_read_payload (pin : Nat) : List Nat :=
  txrx_payload 83 pin 0

/-- `ArduinoClient.analog_read` sends `cmd = b'A'` (byte 65), arg 0. -/
def analog_read_payload (ch : Nat) : List Nat :=
  txrx_payload 65 ch 0

/-! ### Claim C7: frame layout and reply decoding -/

/-- C7: every transactor request frame is exactly
`[0xDE][cmd][hi][lo][arg]` with `hi`/`lo` the big-endian bytes of the
16-bit value and `arg` masked to 8 bits; a two-byte reply decodes as a
big-endian unsigned 16-bit integer; restoring saved pin 22 to HIGH sends
`DE 50 00 16 01`, and the reply `0D 05` decodes to 3333. -/
theorem txrx_frame_and_decode (cmd v arg : Nat) (hv : v < 65536) :
    txrx_payload cmd v arg = [0xDE, cmd, v / 256, v % 256, arg % 256] ∧
    (∀ b0 b1 : Nat, b1 < 256 → u16_from_bytes [b0, b1] = some (b0 * 256 + b1)) ∧
    digital_write_payload 22 1 = [0xDE, 0x50, 0x00, 0x16, 0x01] ∧
    u16_from_bytes [0x0D, 0x05] = some 3333 := by
  refine ⟨?_, ?_, by decide, by decide⟩
  · have hmask : ∀ n : Nat, n &&& 0xFF = n % 256 := by
      intro n
      rw [show (0xFF : Nat) = 2 ^ 8 - 1 by norm_num, Nat.and_pow_two_sub_one_eq_mod]
    have hhi : hi_byte v = v / 256 := by
      unfold hi_byte
      rw [Nat.shiftRight_eq_div_pow, hmask]
      omega
    have hlo : lo_byte v = v % 256 := by unfold lo_byte; rw [hmask]
    simp [txrx_payload, hhi, hlo, hmask, START_FLAG]
  · intro b0 b1 hb1
    have h8 : b1 < 2 ^ 8 := by omega
    show some ((b0 <<< 8) ||| b1) = some (b0 * 256 + b1)
    congr 1
    apply Nat.eq_of_testBit_eq
    intro i
    rw [Nat.testBit_or, Nat.testBit_shiftLeft]
    rw [show b0 * 256 + b1 = 2 ^ 8 * b0 + b1 by ring]
    rw [Nat.testBit_mul_pow_two_add _ h8]
    by_cases hi : i < 8
    · simp [hi, show ¬(i ≥ 8) by omega]
    · simp [hi, show i ≥ 8 by omega]
      have hb : b1 < 2 ^ i :=
        lt_of_lt_of_le h8 (Nat.pow_le_pow_right (by norm_num) (by omega))
      simp [Nat.testBit_lt_two_pow hb]

/-- Witness for `txrx_frame_and_decode` at `cmd = 80`, `v = 22`, `arg = 1`. -/
theorem txrx_frame_and_decode_witness :
    txrx_payload 80 22 1 = [0xDE, 80, 22 / 256, 22 % 256, 1 % 256] ∧
    (∀ b0 b1 : Nat, b1 < 256 → u16_from_bytes [b0, b1] = some (b0 * 256 + b1)) ∧
    digital_write_payload 22 1 = [0xDE, 0x50, 0x00, 0x16, 0x01] ∧
    u16_from_bytes [0x0D, 0x05] = some 3333 :=
  txrx_frame_and_decode 80 22 1 (by decide)

/-! ### Round trip of the decimal rendering and parsing of integers -/

theorem natDigitsRev_eq_digits (fuel : Nat) :
    ∀ n : Nat, n ≤ fuel → natDigitsRev fuel n = Nat.digits 10 n := by
  induction fuel with
  | zero => intro n hn; interval_cases n; simp [natDigitsRev]
  | succ f ih =>
    intro n hn
    by_cases h0 : n = 0
    · subst h0; simp [natDigitsRev]
    · rw [natDigitsRev, if_neg h0, Nat.digits_def' (by norm_num) (Nat.pos_of_ne_zero h0)]
      have : n / 10 ≤ f := by
        have := Nat.div_lt_self (Nat.pos_of_ne_zero h0) (by norm_num : 1 < 10)
        omega
      rw [ih _ this]

theorem digitChar_facts (d : Nat) (hd : d < 10) :
    digitVal (Nat.digitChar d) = some d ∧
    (Nat.digitChar d).isWhitespace = false ∧
    Nat.digitChar d ≠ '-' ∧ Nat.digitChar d ≠ '+' := by
  interval_cases d <;> exact ⟨by decide, by decide, by decide, by decide⟩

theorem parseDigitsFrom_append (l1 l2 : List Char) (acc : Nat) :
    parseDigitsFrom acc (l1 ++ l2) =
      (parseDigitsFrom acc l1).bind (fun a => parseDigitsFrom a l2) := by
  induction l1 generalizing acc with
  | nil => simp [parseDigitsFrom]
  | cons c cs ih =>
    simp only [List.cons_append, parseDigitsFrom]
    cases hdv : digitVal c with
    | some d => simp [ih]
    | none => simp

theorem parseDigitsFrom_rev_digits (ds : List Nat) (h : ∀ d ∈ ds, d < 10) :
    ∀ acc : Nat, parseDigitsFrom acc ((ds.map Nat.digitChar).reverse) =
      some (acc * 10 ^ ds.length + Nat.ofDigits 10 ds) := by
  induction ds with
  | nil => intro acc; simp [parseDigitsFrom, Nat.ofDigits_nil]
  | cons d ds ih =>
    intro acc
    have hd : d < 10 := h d (by simp)
    have hds : ∀ x ∈ ds, x < 10 := fun x hx => h x (by simp [hx])
    rw [List.map_cons, List.reverse_cons, parseDigitsFrom_append, ih hds acc]
    rw [Option.some_bind]
    show parseDigitsFrom _ [Nat.digitChar d] = _
    rw [parseDigitsFrom, (digitChar_facts d hd).1]
    show some ((acc * 10 ^ ds.length + Nat.ofDigits 10 ds) * 10 + d) = _
    rw [Nat.ofDigits_cons]
    simp only [List.length_cons]
    ring_nf

theorem parse_pyStrNatChars (n : Nat) :
    parseDigitsFrom 0 (pyStrNatChars n) = some n := by
  by_cases h0 : n = 0
  · subst h0; rfl
  · rw [pyStrNatChars, if_neg h0, natDigitsRev_eq_digits n n le_rfl]
    rw [parseDigitsFrom_rev_digits _ (fun d hd => Nat.digits_lt_base (by norm_num) hd) 0]
    rw [Nat.ofDigits_digits]
    simp

theorem mem_pyStrNatChars (n : Nat) (c : Char) (hc : c ∈ pyStrNatChars n) :
    ∃ d, d < 10 ∧ c = Nat.digitChar d := by
  by_cases h0 : n = 0
  · subst h0
    simp [pyStrNatChars] at hc
    exact ⟨0, by norm_num, by simpa using hc⟩
  · rw [pyStrNatChars, if_neg h0, natDigitsRev_eq_digits n n le_rfl] at hc
    rw [List.mem_reverse, List.mem_map] at hc
    obtain ⟨d, hd, rfl⟩ := hc
    exact ⟨d, Nat.digits_lt_base (by norm_num) hd, rfl⟩

theorem dropWhile_eq_self_of_forall {p : Char → Bool} (l : List Char)
    (h : ∀ c ∈ l, p c = false) : l.dropWhile p = l := by
  cases l with
  | nil => rfl
  | cons c cs => rw [List.dropWhile_cons, h c (by simp), if_neg (by simp)]

theorem pyStripChars_eq_self (l : List Char)
    (h : ∀ c ∈ l, c.isWhitespace = false) : pyStripChars l = l := by
  rw [pyStripChars, dropWhile_eq_self_of_forall l h,
      dropWhile_eq_self_of_forall l.reverse (by simpa using h), List.reverse_reverse]

theorem pyStrNatChars_ne_nil (n : Nat) : pyStrNatChars n ≠ [] := by
  by_cases h0 : n = 0
  · subst h0; simp [pyStrNatChars]
  · rw [pyStrNatChars, if_neg h0, natDigitsRev_eq_digits n n le_rfl]
    simp [Nat.digits_ne_nil_iff_ne_zero, h0]

theorem toList_asString (l : List Char) : (l.asString).toList = l := rfl

/-- Python round trip: `int(str(i)) = i` for every integer `i`. -/
theorem pyInt?_pyStrInt (i : Int) : pyInt? (pyStrInt i) = some i := by
  have hchars : ∀ c ∈ pyStrNatChars i.natAbs, c.isWhitespace = false := by
    intro c hc
    obtain ⟨d, hd, rfl⟩ := mem_pyStrNatChars _ c hc
    exact (digitChar_facts d hd).2.1
  by_cases hneg : i < 0
  · rw [pyStrInt, if_pos hneg, pyInt?]
    have htl : ("-" ++ (pyStrNatChars i.natAbs).asString).toList
        = '-' :: pyStrNatChars i.natAbs := by
      show ("-" ++ (pyStrNatChars i.natAbs).asString).data = _
      rw [String.data_append]
      rfl
    rw [htl, pyStripChars_eq_self _ (by
      intro c hc
      rcases List.mem_cons.mp hc with rfl | hc
      · decide
      · exact hchars c hc)]
    rw [pyIntOfChars, if_pos rfl, if_neg (pyStrNatChars_ne_nil _), parse_pyStrNatChars]
    show some (-(i.natAbs : Int)) = some i
    congr 1
    omega
  · rw [pyStrInt, if_neg hneg, pyInt?, toList_asString, pyStripChars_eq_self _ hchars]
    obtain ⟨c, cs, hcons⟩ := List.exists_cons_of_ne_nil (pyStrNatChars_ne_nil i.natAbs)
    have hdigit : ∃ d, d < 10 ∧ c = Nat.digitChar d := by
      apply mem_pyStrNatChars i.natAbs
      rw [hcons]; simp
    obtain ⟨d, hd, rfl⟩ := hdigit
    rw [hcons, pyIntOfChars, if_neg (digitChar_facts d hd).2.2.1,
        if_neg (digitChar_facts d hd).2.2.2, ← hcons, parse_pyStrNatChars]
    show some ((i.natAbs : Int)) = some i
    congr 1
    omega

deriving instance DecidableEq for Except

/-! ### Python dictionaries and document values

A Python `dict` is modelled as an insertion-ordered association list with
distinct keys; assignment `d[k] = v` overwrites in place when the key is
present and appends otherwise, and `d.get(k)` returns the first (unique)
binding.  JSON/YAML documents — the values produced by `json.load` and
`yaml.safe_load` — are modelled by the inductive `Doc` (floats do not occur
in this program's documents and are omitted; mapping keys are strings, the
shape of both documented formats). -/

def dictInsert {α β : Type} [BEq α] (l : List (α × β)) (k : α) (v : β) :
    List (α × β) :=
  if l.any (fun kv => kv.1 == k) then
    l.map (fun kv => if kv.1 == k then (k, v) else kv)
  else l ++ [(k, v)]

def dictGet {α β : Type} [BEq α] (l : List (α × β)) (k : α) : Option β :=
  (l.find? (fun kv => kv.1 == k)).map (fun kv => kv.2)

inductive Doc where
  | null
  | bool (b : Bool)
  | int (n : Int)
  | str (s : String)
  | list (xs : List Doc)
  | dict (kvs : List (String × Doc))

/-- Python truthiness `bool(v)` on document values. -/
def pyTruthy : Doc → Bool
  | .null => false
  | .bool b => b
  | .int n => n != 0
  | .str s => s != ""
  | .list xs => !xs.isEmpty
  | .dict kvs => !kvs.isEmpty

/-! ### app/state_store.py

`save_p_states` writes `{"P": {str(k): bool(v) for k, v in
sorted(mapping.items())}}` to a temporary file, fsyncs and atomically
renames it; the serialized JSON text is modelled by the document itself
(JSON round-trips string-keyed objects of booleans exactly).  Python's
`sorted` on `items()` orders the pairs lexicographically; since a dict's
keys are distinct this is the order of the keys, modelled with a stable
merge sort on the key.  `load_p_states` returns `{}` for a missing file and
on any parse error — both modelled by the `none` input — and coerces keys
with `int(k)` and values with `bool(v)`, skipping entries whose key fails
to parse. -/

def save_p_obj (m : List (Int × Bool)) : List (String × Doc) :=
  (m.mergeSort (fun a b => decide (a.1 ≤ b.1))).map
    (fun kv => (pyStrInt kv.1, Doc.bool kv.2))

def save_p_states (m : List (Int × Bool)) : Doc :=
  Doc.dict [("P", Doc.dict (save_p_obj m))]

def load_p_states (file : Option Doc) : List (Int × Bool) :=
  match file with
  | none => []
  | some raw =>
    let raw2 := if pyTruthy raw then raw else Doc.dict []
    match raw2 with
    | Doc.dict kvs =>
      match (dictGet kvs "P").getD (Doc.dict []) with
      | Doc.dict p =>
        p.foldl (fun result kv =>
          match pyInt? kv.1 with
          | some pin => dictInsert result pin (pyTruthy kv.2)
          | none => result) []
      | _ => []
    | _ => []

/-! ### Claim C6: state-store round trip -/

theorem foldl_dictInsert (l : List (Int × Bool)) :
    ∀ acc : List (Int × Bool), (((acc ++ l).map Prod.fst).Nodup) →
      l.foldl (fun r kv => dictInsert r kv.1 kv.2) acc = acc ++ l := by
  induction l with
  | nil => intro acc _; simp
  | cons kv l ih =>
    intro acc hnd
    have hknotin : kv.1 ∉ acc.map Prod.fst := by
      simp only [List.map_append, List.map_cons] at hnd
      intro hmem
      rw [List.nodup_append] at hnd
      exact hnd.2.2 hmem (by simp)
    have hany : acc.any (fun x => x.1 == kv.1) = false := by
      rw [List.any_eq_false]
      intro x hx
      simp only [beq_iff_eq]
      intro heq
      exact hknotin (heq ▸ List.mem_map_of_mem Prod.fst hx)
    rw [List.foldl_cons]
    rw [show dictInsert acc kv.1 kv.2 = acc ++ [(kv.1, kv.2)] by
      rw [dictInsert, if_neg (by simp [hany])]]
    rw [ih (acc ++ [(kv.1, kv.2)]) (by simpa using hnd)]
    simp

/-- C6: for every mapping from integer pins to booleans, loading the
document produced by save yields exactly the same mapping (as a dict, i.e.
up to reordering of the distinct-keyed bindings: save renders the keys as
sorted decimal strings under the top-level "P" object and load coerces
them back). -/
theorem load_save_roundtrip (m : List (Int × Bool))
    (hm : (m.map Prod.fst).Nodup) :
    (load_p_states (some (save_p_states m))).Perm m := by
  have hperm : (m.mergeSort (fun a b => decide (a.1 ≤ b.1))).Perm m :=
    List.mergeSort_perm m _
  have hnd : ((m.mergeSort (fun a b => decide (a.1 ≤ b.1))).map Prod.fst).Nodup :=
    ((hperm.map Prod.fst).symm).nodup hm
  have hload : load_p_states (some (save_p_states m)) =
      (m.mergeSort (fun a b => decide (a.1 ≤ b.1))).foldl
        (fun r kv => dictInsert r kv.1 kv.2) [] := by
    show (save_p_obj m).foldl _ [] = _
    rw [save_p_obj, List.foldl_map]
    congr 1
    funext r kv
    rw [pyInt?_pyStrInt]
    rfl
  rw [hload, foldl_dictInsert _ [] (by simpa using hnd)]
  simpa using hperm

/-- Witness for `load_save_roundtrip` at `m = [(22, true), (13, false)]`. -/
theorem load_save_roundtrip_witness :
    (([(22, true), (13, false)] : List (Int × Bool)).map Prod.fst).Nodup ∧
    (load_p_states (some (save_p_states [(22, true), (13, false)]))).Perm
      [(22, true), (13, false)] :=
  ⟨by decide, load_save_roundtrip [(22, true), (13, false)] (by decide)⟩

/-! ### app/failsafe.py — the failsafe map loader

`load_failsafe_map(path)` returns `{}` when the file is missing; otherwise
it runs `yaml.safe_load` (whose parse failure propagates — there is no
try/except around it), replaces a falsy document by `{}`, and then reads
either the `bindings` list shape or the `map` dict shape, skipping entries
whose fields fail `int(...)` coercion.  Python's `in`, subscription and
`int` on arbitrary document values can raise `TypeError`/`KeyError`/
`ValueError`; every raise is modelled as `Except.error ()`.  The input is
`none` for a missing file, `some none` for a file whose YAML fails to
parse, and `some (some d)` for a parsed document `d`. -/

/-- Python `in` on strings: substring containment. -/
def strContains (s pat : String) : Bool :=
  pat == "" || (s.splitOn pat).length > 1

/-- Python `key in data` for a string key; raises on non-iterables. -/
def py_in (key : String) : Doc → Except Unit Bool
  | .dict kvs => .ok (kvs.any (fun kv => kv.1 == key))
  | .list xs => .ok (xs.any (fun x => match x with | .str t => t == key | _ => false))
  | .str s => .ok (strContains s key)
  | _ => .error ()

/-- Python `data[key]` for a string key; `KeyError` on a missing key and
`TypeError` on non-dicts are both raises. -/
def py_index : Doc → String → Except Unit Doc
  | .dict kvs, key =>
    (match dictGet kvs key with
     | some v => .ok v
     | none => .error ())
  | _, _ => .error ()

/-- Python `int(x)` on a document value. -/
def py_int : Doc → Except Unit Int
  | .int n => .ok n
  | .bool b => .ok (if b then 1 else 0)
  | .str s =>
    (match pyInt? s with
     | some n => .ok n
     | none => .error ())
  | _ => .error ()

/-- One iteration of the `bindings` loop: `s = int(item["s"]);
p = int(item["p"])` inside `try`, `none` when the entry is skipped. -/
def bindings_entry (item : Doc) : Option (Int × Int) :=
  match (do
      let sv ← py_index item "s"
      let s ← py_int sv
      let pv ← py_index item "p"
      let p ← py_int pv
      pure (s, p) : Except Unit (Int × Int)) with
  | .ok sp => some sp
  | .error _ => none

/-- One iteration of the `map` loop: `s = int(s_str); p = int(p)` inside
`try`. -/
def map_entry (kv : String × Doc) : Option (Int × Int) :=
  match (do
      let s ← py_int (Doc.str kv.1)
      let p ← py_int kv.2
      pure (s, p) : Except Unit (Int × Int)) with
  | .ok sp => some sp
  | .error _ => none

/-- The `bindings`-shape loop: `result[s] = p` over the list entries. -/
def bindings_fold (items : List Doc) : List (Int × Int) :=
  items.foldl (fun r it =>
    match bindings_entry it with
    | some sp => dictInsert r sp.1 sp.2
    | none => r) []

/-- The `map`-shape loop: `result[s] = p` over the dict entries. -/
def map_fold (kvs : List (String × Doc)) : List (Int × Int) :=
  kvs.foldl (fun r kv =>
    match map_entry kv with
    | some sp => dictInsert r sp.1 sp.2
    | none => r) []

/-- The `elif "map" in data and isinstance(data["map"], dict)` arm. -/
def load_failsafe_elif (data : Doc) : Except Unit (List (Int × Int)) := do
  let hasM ← py_in "map" data
  let md ← if hasM then do
      let mv ← py_index data "map"
      pure (match mv with | Doc.dict kvs => some kvs | _ => none)
    else pure none
  match md with
  | some kvs => pure (map_fold kvs)
  | none => pure []

/-- The loader body on the (possibly defaulted) document: the
`if "bindings" in data and isinstance(data["bindings"], list)` arm,
falling through to the `elif` arm. -/
def load_failsafe_data (data : Doc) : Except Unit (List (Int × Int)) := do
  let hasB ← py_in "bindings" data
  let bl ← if hasB then do
      let b ← py_index data "bindings"
      pure (match b with | Doc.list items => some items | _ => none)
    else pure none
  match bl with
  | some items => pure (bindings_fold items)
  | none => load_failsafe_elif data

/-- `failsafe.load_failsafe_map`. -/
def load_failsafe_map (file : Option (Option Doc)) :
    Except Unit (List (Int × Int)) :=
  match file with
  | none => .ok []
  | some none => .error ()
  | some (some d) => load_failsafe_data (if pyTruthy d then d else Doc.dict [])

/-! ### Claim C9: totality of the failsafe loader -/

theorem py_index_dict_of_any (kvs : List (String × Doc)) (key : String)
    (h : kvs.any (fun kv => kv.1 == key) = true) :
    ∃ v, py_index (Doc.dict kvs) key = .ok v := by
  have hs : (kvs.find? (fun kv => kv.1 == key)).isSome = true := by
    rw [List.find?_isSome]
    simpa using h
  obtain ⟨kv, hkv⟩ := Option.isSome_iff_exists.mp hs
  refine ⟨kv.2, ?_⟩
  simp [py_index, dictGet, hkv]

theorem except_ok_bind {ε α β : Type} (a : α) (f : α → Except ε β) :
    (Except.ok a : Except ε α) >>= f = f a := rfl

theorem load_failsafe_elif_dict_isOk (kvs : List (String × Doc)) :
    (load_failsafe_elif (Doc.dict kvs)).isOk = true := by
  rw [load_failsafe_elif]
  simp only [py_in, except_ok_bind]
  cases hM : kvs.any (fun kv => kv.1 == "map") with
  | false =>
    simp only [if_false, pure_bind, Bool.false_eq_true]
    rfl
  | true =>
    obtain ⟨v, hv⟩ := py_index_dict_of_any kvs "map" hM
    simp only [if_true, hv, except_ok_bind, pure_bind]
    cases v <;> rfl

theorem load_failsafe_data_dict_isOk (kvs : List (String × Doc)) :
    (load_failsafe_data (Doc.dict kvs)).isOk = true := by
  rw [load_failsafe_data]
  simp only [py_in, except_ok_bind]
  cases hB : kvs.any (fun kv => kv.1 == "bindings") with
  | false =>
    simp only [if_false, pure_bind, Bool.false_eq_true]
    exact load_failsafe_elif_dict_isOk kvs
  | true =>
    obtain ⟨v, hv⟩ := py_index_dict_of_any kvs "bindings" hB
    simp only [if_true, hv, except_ok_bind, pure_bind]
    cases v with
    | list items => rfl
    | null => exact load_failsafe_elif_dict_isOk kvs
    | bool b => exact load_failsafe_elif_dict_isOk kvs
    | int n => exact load_failsafe_elif_dict_isOk kvs
    | str t => exact load_failsafe_elif_dict_isOk kvs
    | dict kvs1 => exact load_failsafe_elif_dict_isOk kvs

/-- C9 counterexample: the loader is not total — a parseable YAML document
whose top level is the scalar `5` makes `"bindings" in data` raise
`TypeError` (an `int` is not iterable), so the loader raises and startup
aborts. -/
theorem load_failsafe_map_raises_on_scalar :
    load_failsafe_map (some (some (Doc.int 5))) = Except.error () := rfl

/-- C9 (amended): the loader never raises on a missing file (empty map) or
on any top-level mapping document, and invalid entries within a recognised
shape are skipped silently (here: an entry that is not a dict changes
nothing); but a non-mapping document or unparseable YAML makes the loader
raise and abort startup. -/
theorem load_failsafe_map_total_on_mappings :
    load_failsafe_map none = Except.ok [] ∧
    (∀ kvs : List (String × Doc),
      (load_failsafe_map (some (some (Doc.dict kvs)))).isOk = true) ∧
    (∀ items : List Doc,
      load_failsafe_map
          (some (some (Doc.dict [("bindings", Doc.list (Doc.null :: items))]))) =
        load_failsafe_map
          (some (some (Doc.dict [("bindings", Doc.list items)])))) := by
  refine ⟨rfl, ?_, fun items => rfl⟩
  intro kvs
  show (load_failsafe_data (if pyTruthy (Doc.dict kvs) then Doc.dict kvs
      else Doc.dict [])).isOk = true
  by_cases h : pyTruthy (Doc.dict kvs) = true
  · rw [if_pos h]; exact load_failsafe_data_dict_isOk kvs
  · rw [if_neg (by simpa using h)]; exact load_failsafe_data_dict_isOk []

/-! ### app/service.py — the runtime engine

The engine's externally visible actions are recorded as events: `write`
is a completed `ArduinoClient.digital_write` transaction (pin, state code,
two-byte reply already decoded), `publish` is a broker publish attempt
through `MqttManager.publish`, and `save` is an attempted `save_p_states`
with the mapping it persists.  The board is an oracle: `rd pin` is the
decoded reply of `digital_read`/`analog_read` (`none` models a raised
transactor error) and `wr pin code` likewise for `digital_write`.  The
broker is an oracle too: `pub topic payload` is `true` when
`MqttManager.publish` returns and `false` when it raises, in which case
`_safe_publish` logs and flips `_mqtt_online` to `False`
(service.py 134-136). -/

/-- `service.S_PINS`. -/
def S_PINS : List Int := [38,40,42,44,46,48,50,52,53,39,37,35,33,31,29,27]

/-- `service.P_PINS`. -/
def P_PINS : List Int :=
  [36,34,32,30,28,26,24,22,13,12,11,10,9,8,7,6,5,4,3,2,45,47,14,15,16,17,18,19,49,51,23,25]

/-- `service.A_CHANS`: `list(range(16))`. -/
def A_CHANS : List Int := (List.range 16).map Int.ofNat

inductive Ev where
  | write (pin : Int) (code : Nat) (resp : Nat)
  | publish (topic payload : String) (retain : Bool)
  | save (states : List (Int × Bool))
deriving DecidableEq

structure EngSt where
  s_state : List (Int × Bool)
  p_state : List (Int × Bool)
  a_state : List (Int × Int)
  mqtt_online : Bool
  failsafe_map : List (Int × Int)
deriving DecidableEq

/-- `AppService._safe_publish` (service.py 126-136): returns immediately
when MQTT is offline; otherwise calls `MqttManager.publish` — the `pub`
oracle tells whether that call returns or raises — and when it raises,
logs a warning and sets `_mqtt_online = False` (lines 134-136).  The
`publish` event records the attempt, which is made in both cases; every
modelled call site passes retain=True. -/
def safe_publish (pub : String → String → Bool) (st : EngSt)
    (topic payload : String) : EngSt × List Ev :=
  if st.mqtt_online then
    if pub topic payload then (st, [Ev.publish topic payload true])
    else ({ st with mqtt_online := false }, [Ev.publish topic payload true])
  else (st, [])

/-- `f"{base}/P{pin}/state"`. -/
def p_state_topic (base : String) (pin : Int) : String :=
  base ++ "/P" ++ pyStrInt pin ++ "/state"

/-- `f"{base}/S{pin}/state"`. -/
def s_state_topic (base : String) (pin : Int) : String :=
  base ++ "/S" ++ pyStrInt pin ++ "/state"

/-- `f"{base}/A{ch}/state"`. -/
def a_state_topic (base : String) (ch : Int) : String :=
  base ++ "/A" ++ pyStrInt ch ++ "/state"

/-- One iteration of `AppService._restore_pins` (lines 147-156): skip pins
outside the catalog, issue the write, record the acknowledged state, and
publish retained; a raised transactor error is logged and skipped. -/
def restore_pin (base : String) (pub : String → String → Bool)
    (wr : Int → Nat → Option Nat) (st : EngSt)
    (pin : Int) (saved : Bool) : EngSt × List Ev :=
  if pin ∉ P_PINS then (st, [])
  else
    match wr pin (if saved then 1 else 0) with
    | none => (st, [])
    | some resp =>
      let new_state := if resp = 3333 then true else false
      let st1 := { st with p_state := dictInsert st.p_state pin new_state }
      let sp := safe_publish pub st1 (p_state_topic base pin) (on_off new_state)
      (sp.1, Ev.write pin (if saved then 1 else 0) resp :: sp.2)

/-- `AppService._restore_pins` over the loaded state file. -/
def restore_pins (base : String) (pub : String → String → Bool)
    (wr : Int → Nat → Option Nat) (st : EngSt)
    (saved : List (Int × Bool)) : EngSt × List Ev :=
  saved.foldl (fun acc kv =>
    let stp := restore_pin base pub wr acc.1 kv.1 kv.2
    (stp.1, acc.2 ++ stp.2)) (st, [])

/-- Lines 67-70 of `AppService.start`: a failed handshake raises
`SystemExit(2)`. -/
def start_handshake_check (ok : Bool) : Except Nat Unit :=
  if !ok then .error 2 else .ok ()

/-- Outcome of the per-message filtering and interpretation. -/
inductive CmdAct where
  | skip
  | writeCmd (pin : Int) (code : Nat)
  | fail
deriving DecidableEq

/-- Python `base.rstrip("/")`. -/
def rstripSlashes (s : String) : String :=
  ((s.toList.reverse.dropWhile (fun c => c = '/')).reverse).asString

/-- Lines 227-236 of `_mqtt_commands_worker`: topic filtering and the pin
parse.  `none`: not a `<base>/P<n>/set` topic, silently skipped;
`some (.error ())`: `int(...)` raised `ValueError` on the pin literal,
which escapes to the worker's exception handler; `some (.ok pin)`: a
well-formed command topic for `pin`. -/
def parse_set_topic (base topic : String) : Option (Except Unit Int) :=
  let pfx := (rstripSlashes base).toList ++ ['/']
  if pfx.isPrefixOf topic.toList then
    let rel := topic.toList.drop pfx.length
    let parts := pySplit '/' rel
    if parts.length = 2 ∧ (parts.headD []).headD ' ' = 'P' ∧
        parts.getD 1 [] = "set".toList then
      match pyInt? ((parts.headD []).drop 1).asString with
      | none => some (.error ())
      | some pin => some (.ok pin)
    else none
  else none

/-- Lines 237-245: catalog check (unknown pins are logged and skipped) and
payload interpretation: `"TOGGLE"` → state code 2, else `as_bool`, whose
`ValueError` escapes to the worker's exception handler (`.fail`).  The
payload has already been decoded (`errors="ignore"`) and is modelled as a
string. -/
def command_decision (pin : Int) (payload : String) : CmdAct :=
  if pin ∉ P_PINS then .skip
  else
    let s := pyStrip payload
    if pyUpper s = "TOGGLE" then .writeCmd pin 2
    else
      match as_bool s with
      | some b => .writeCmd pin (if b then 1 else 0)
      | none => .fail

/-- Lines 227-245: the per-message filtering and interpretation. -/
def process_message (base topic payload : String) : CmdAct :=
  match parse_set_topic base topic with
  | none => .skip
  | some (.error _) => .fail
  | some (.ok pin) => command_decision pin payload

/-- Lines 247-256 of `_mqtt_commands_worker`: the accepted command's write,
state update, retained publish attempt and state-store save, in source
order. -/
def run_command (base : String) (pub : String → String → Bool) (st : EngSt)
    (pin : Int) (code : Nat) (resp : Nat) : EngSt × List Ev :=
  let new_state := if resp = 3333 then true else false
  let st1 := { st with p_state := dictInsert st.p_state pin new_state }
  let sp := safe_publish pub st1 (p_state_topic base pin) (on_off new_state)
  (sp.1, Ev.write pin code resp :: (sp.2 ++ [Ev.save st1.p_state]))

/-- The `async for` message loop of `_mqtt_commands_worker` under its
`try` (lines 225-263) over a finite message list.  A raised exception
(bad payload, bad pin literal, or transactor error) is caught by the
worker's handler, which logs, flips MQTT offline and leaves the loop; it
never raises `SystemExit`, hence the `Except Nat` result — the type a
worker that could exit the process would have — is always `ok`.  A
publish failure inside `_safe_publish` only flips the mode; the loop
keeps consuming. -/
def commands_consume (base : String) (pub : String → String → Bool)
    (wr : Int → Nat → Option Nat) :
    EngSt → List (String × String) → Except Nat (EngSt × List Ev)
  | st, [] => .ok (st, [])
  | st, (topic, payload) :: rest =>
    match process_message base topic payload with
    | .skip => commands_consume base pub wr st rest
    | .fail => .ok ({ st with mqtt_online := false }, [])
    | .writeCmd pin code =>
      match wr pin code with
      | none => .ok ({ st with mqtt_online := false }, [])
      | some resp =>
        let stp := run_command base pub st pin code resp
        match commands_consume base pub wr stp.1 rest with
        | .ok res => .ok (res.1, stp.2 ++ res.2)
        | .error n => .error n

/-- Lines 280-295 of `_digital_poll_worker`: the failsafe mirror block,
entered after the S-state update and publish attempt.  It is guarded by
the mode read at line 281 — which may already be Offline because the
publish attempt just failed — and by the map lookup and the
protection against writes that would not change the output; the write
and the save each have their own try/except. -/
def failsafe_mirror (wr : Int → Nat → Option Nat) (st2 : EngSt)
    (pin : Int) (is_high : Bool) : EngSt × List Ev :=
  if st2.mqtt_online then (st2, [])
  else
    match dictGet st2.failsafe_map pin with
    | none => (st2, [])
    | some p_pin =>
      if dictGet st2.p_state p_pin ≠ some is_high then
        match wr p_pin (if is_high then 1 else 0) with
        | none => (st2, [])
        | some resp =>
          let new_state := if resp = 3333 then true else false
          let st3 := { st2 with p_state := dictInsert st2.p_state p_pin new_state }
          (st3, [Ev.write p_pin (if is_high then 1 else 0) resp,
                 Ev.save st3.p_state])
      else (st2, [])

/-- Lines 271-295 of `_digital_poll_worker`: one S-pin of a sweep after
the read has been decoded to `is_high` — transition detection, retained
publish attempt via `_safe_publish` (whose failure flips the mode), then
the failsafe mirror block. -/
def digital_poll_pin_b (base : String) (pub : String → String → Bool)
    (wr : Int → Nat → Option Nat)
    (st : EngSt) (pin : Int) (is_high : Bool) : EngSt × List Ev :=
  let prev := dictGet st.s_state pin
  if prev = none ∨ prev ≠ some is_high then
    let st1 := { st with s_state := dictInsert st.s_state pin is_high }
    let sp := safe_publish pub st1 (s_state_topic base pin) (on_off is_high)
    let fs := failsafe_mirror wr sp.1 pin is_high
    (fs.1, sp.2 ++ fs.2)
  else (st, [])

/-- One S-pin of a sweep: `is_high = (val == 1111)` (line 273). -/
def digital_poll_pin (base : String) (pub : String → String → Bool)
    (wr : Int → Nat → Option Nat)
    (st : EngSt) (pin : Int) (val : Nat) : EngSt × List Ev :=
  digital_poll_pin_b base pub wr st pin (if val = 1111 then true else false)

/-- The sweep over `S_PINS`; a raised transactor error on a read escapes
the sweep's `try` and raises `SystemExit(4)` (lines 297-299). -/
def digital_poll_sweep_go (base : String) (pub : String → String → Bool)
    (rd : Int → Option Nat) (wr : Int → Nat → Option Nat) :
    List Int → EngSt → List Ev → Except Nat (EngSt × List Ev)
  | [], st, evs => .ok (st, evs)
  | pin :: rest, st, evs =>
    match rd pin with
    | none => .error 4
    | some val =>
      let stp := digital_poll_pin base pub wr st pin val
      digital_poll_sweep_go base pub rd wr rest stp.1 (evs ++ stp.2)

/-- One full sweep of `_digital_poll_worker`. -/
def digital_poll_sweep (base : String) (pub : String → String → Bool)
    (rd : Int → Option Nat) (wr : Int → Nat → Option Nat) (st : EngSt) :
    Except Nat (EngSt × List Ev) :=
  digital_poll_sweep_go base pub rd wr S_PINS st []

/-- Lines 308-313 of `_analog_poll_worker`: one A-channel — publish and
cache only on first observation or when the absolute delta reaches the
threshold. -/
def analog_poll_chan (base : String) (pub : String → String → Bool)
    (thr : Int) (st : EngSt) (ch : Int) (val : Int) : EngSt × List Ev :=
  let prev := dictGet st.a_state ch
  if (match prev with
      | none => true
      | some p => decide (|val - p| ≥ thr)) then
    let st1 := { st with a_state := dictInsert st.a_state ch val }
    safe_publish pub st1 (a_state_topic base ch) (pyStrInt val)
  else (st, [])

/-- The sweep over `A_CHANS`; a raised transactor error raises
`SystemExit(5)` (lines 314-316). -/
def analog_poll_sweep_go (base : String) (pub : String → String → Bool)
    (thr : Int) (rd : Int → Option Int) :
    List Int → EngSt → List Ev → Except Nat (EngSt × List Ev)
  | [], st, evs => .ok (st, evs)
  | ch :: rest, st, evs =>
    match rd ch with
    | none => .error 5
    | some val =>
      let stp := analog_poll_chan base pub thr st ch val
      analog_poll_sweep_go base pub thr rd rest stp.1 (evs ++ stp.2)

/-- One full sweep of `_analog_poll_worker`, with the worker's
`thr = max(0, analog_threshold)` (line 304). -/
def analog_poll_sweep (base : String) (pub : String → String → Bool)
    (cfg_thr : Int) (rd : Int → Option Int) (st : EngSt) :
    Except Nat (EngSt × List Ev) :=
  analog_poll_sweep_go base pub (max 0 cfg_thr) rd A_CHANS st []

/-! ### Dictionary lemmas -/

theorem find?_map_replace {β : Type} (l : List (Int × β)) (k : Int) (v : β) :
    ((l.map (fun kv => if kv.1 == k then (k, v) else kv)).find?
        (fun kv => kv.1 == k)) =
      if l.any (fun kv => kv.1 == k) then some (k, v) else none := by
  induction l with
  | nil => simp
  | cons kv t ih =>
    by_cases h : kv.1 = k
    · simp [h, List.find?]
    · have hb : (kv.1 == k) = false := by simpa using h
      simp only [List.map_cons, List.any_cons, hb, Bool.false_or]
      rw [List.find?_cons_of_neg _ (by simp [h])]
      exact ih

theorem dictGet_dictInsert_self {β : Type} (l : List (Int × β)) (k : Int)
    (v : β) : dictGet (dictInsert l k v) k = some v := by
  rw [dictInsert]
  by_cases h : l.any (fun kv => kv.1 == k)
  · rw [if_pos h, dictGet, find?_map_replace, if_pos h]
    rfl
  · rw [if_neg h, dictGet]
    have hnone : l.find? (fun kv => kv.1 == k) = none := by
      rw [List.find?_eq_none]
      intro x hx
      rcases hfound : (x.1 == k) with _ | _
      · simp
      · exact absurd (List.any_eq_true.mpr ⟨x, hx, hfound⟩) h
    rw [List.find?_append, hnone]
    simp [List.find?]

/-! ### Behaviour of one publish attempt -/

theorem safe_publish_offline (pub : String → String → Bool) (st : EngSt)
    (t p : String) (h : st.mqtt_online = false) :
    safe_publish pub st t p = (st, []) := by
  rw [safe_publish, if_neg (by simp [h])]

theorem safe_publish_online_ok (pub : String → String → Bool) (st : EngSt)
    (t p : String) (hon : st.mqtt_online = true) (hok : pub t p = true) :
    safe_publish pub st t p = (st, [Ev.publish t p true]) := by
  rw [safe_publish, if_pos hon, if_pos hok]

theorem safe_publish_online_fail (pub : String → String → Bool) (st : EngSt)
    (t p : String) (hon : st.mqtt_online = true) (hfail : pub t p = false) :
    safe_publish pub st t p = ({ st with mqtt_online := false },
      [Ev.publish t p true]) := by
  rw [safe_publish, if_pos hon, if_neg (by simp [hfail])]

theorem safe_publish_snd_online (pub : String → String → Bool) (st : EngSt)
    (t p : String) (hon : st.mqtt_online = true) :
    (safe_publish pub st t p).2 = [Ev.publish t p true] := by
  rw [safe_publish, if_pos hon]
  split <;> rfl

theorem safe_publish_mem (pub : String → String → Bool) (st : EngSt)
    (t p : String) :
    ∀ e ∈ (safe_publish pub st t p).2, e = Ev.publish t p true := by
  rw [safe_publish]
  split
  · split <;> (intro e he; simpa using he)
  · intro e he; simp at he

theorem safe_publish_p_state (pub : String → String → Bool) (st : EngSt)
    (t p : String) : (safe_publish pub st t p).1.p_state = st.p_state := by
  rw [safe_publish]
  split
  · split <;> rfl
  · rfl

theorem safe_publish_s_state (pub : String → String → Bool) (st : EngSt)
    (t p : String) : (safe_publish pub st t p).1.s_state = st.s_state := by
  rw [safe_publish]
  split
  · split <;> rfl
  · rfl

theorem safe_publish_failsafe_map (pub : String → String → Bool) (st : EngSt)
    (t p : String) :
    (safe_publish pub st t p).1.failsafe_map = st.failsafe_map := by
  rw [safe_publish]
  split
  · split <;> rfl
  · rfl

/-- When the step begins Online, the mode after the publish attempt is
exactly the attempt's outcome: it stays Online iff the publish succeeded
(service.py 134-136). -/
theorem safe_publish_mode_online (pub : String → String → Bool) (st : EngSt)
    (t p : String) (hon : st.mqtt_online = true) :
    (safe_publish pub st t p).1.mqtt_online = pub t p := by
  rw [safe_publish, if_pos hon]
  cases h : pub t p with
  | true => simp [hon]
  | false => simp

/-! ### Behaviour of the failsafe mirror block -/

theorem failsafe_mirror_online (wr : Int → Nat → Option Nat) (st2 : EngSt)
    (pin : Int) (b : Bool) (h : st2.mqtt_online = true) :
    failsafe_mirror wr st2 pin b = (st2, []) := by
  rw [failsafe_mirror, if_pos h]

theorem failsafe_mirror_unmapped (wr : Int → Nat → Option Nat) (st2 : EngSt)
    (pin : Int) (b : Bool) (hoff : st2.mqtt_online = false)
    (hm : dictGet st2.failsafe_map pin = none) :
    failsafe_mirror wr st2 pin b = (st2, []) := by
  rw [failsafe_mirror, if_neg (by simp [hoff]), hm]

theorem failsafe_mirror_already_equal (wr : Int → Nat → Option Nat)
    (st2 : EngSt) (pin p_pin : Int) (b : Bool)
    (hoff : st2.mqtt_online = false)
    (hm : dictGet st2.failsafe_map pin = some p_pin)
    (heq : dictGet st2.p_state p_pin = some b) :
    failsafe_mirror wr st2 pin b = (st2, []) := by
  rw [failsafe_mirror, if_neg (by simp [hoff]), hm]
  dsimp only
  rw [if_neg (by simpa using heq)]

theorem failsafe_mirror_write_fails (wr : Int → Nat → Option Nat)
    (st2 : EngSt) (pin p_pin : Int) (b : Bool)
    (hoff : st2.mqtt_online = false)
    (hm : dictGet st2.failsafe_map pin = some p_pin)
    (hdiff : dictGet st2.p_state p_pin ≠ some b)
    (hw : wr p_pin (if b then 1 else 0) = none) :
    failsafe_mirror wr st2 pin b = (st2, []) := by
  rw [failsafe_mirror, if_neg (by simp [hoff]), hm]
  dsimp only
  rw [if_pos (by simpa using hdiff), hw]

theorem failsafe_mirror_write (wr : Int → Nat → Option Nat) (st2 : EngSt)
    (pin p_pin : Int) (b : Bool) (resp : Nat)
    (hoff : st2.mqtt_online = false)
    (hm : dictGet st2.failsafe_map pin = some p_pin)
    (hdiff : dictGet st2.p_state p_pin ≠ some b)
    (hw : wr p_pin (if b then 1 else 0) = some resp) :
    failsafe_mirror wr st2 pin b =
      ({ st2 with p_state := dictInsert st2.p_state p_pin (if resp = 3333 then true else false) },
       [Ev.write p_pin (if b then 1 else 0) resp,
        Ev.save (dictInsert st2.p_state p_pin (if resp = 3333 then true else false))]) := by
  rw [failsafe_mirror, if_neg (by simp [hoff]), hm]
  dsimp only
  rw [if_pos (by simpa using hdiff), hw]

/-- Every run of the failsafe block either does nothing, or — only with
the mode Offline at its entry guard — issues the one mirroring write. -/
theorem failsafe_mirror_cases (wr : Int → Nat → Option Nat) (st2 : EngSt)
    (pin : Int) (b : Bool) :
    failsafe_mirror wr st2 pin b = (st2, []) ∨
    (st2.mqtt_online = false ∧ ∃ p_pin resp,
      dictGet st2.failsafe_map pin = some p_pin ∧
      dictGet st2.p_state p_pin ≠ some b ∧
      wr p_pin (if b then 1 else 0) = some resp ∧
      failsafe_mirror wr st2 pin b =
        ({ st2 with p_state := dictInsert st2.p_state p_pin (if resp = 3333 then true else false) },
         [Ev.write p_pin (if b then 1 else 0) resp,
          Ev.save (dictInsert st2.p_state p_pin (if resp = 3333 then true else false))])) := by
  cases hon : st2.mqtt_online with
  | true => exact Or.inl (failsafe_mirror_online wr st2 pin b hon)
  | false =>
    cases hm : dictGet st2.failsafe_map pin with
    | none => exact Or.inl (failsafe_mirror_unmapped wr st2 pin b hon hm)
    | some p_pin =>
      by_cases heq : dictGet st2.p_state p_pin = some b
      · exact Or.inl (failsafe_mirror_already_equal wr st2 pin p_pin b hon hm heq)
      · cases hw : wr p_pin (if b then 1 else 0) with
        | none =>
          exact Or.inl (failsafe_mirror_write_fails wr st2 pin p_pin b hon hm heq hw)
        | some resp =>
          refine Or.inr ⟨rfl, p_pin, resp, rfl, heq, hw, ?_⟩
          rw [failsafe_mirror_write wr st2 pin p_pin b resp hon hm heq hw, hon]

/-! ### Characterizations of one digital-poll step -/

theorem digital_poll_pin_b_no_transition (base : String)
    (pub : String → String → Bool) (wr : Int → Nat → Option Nat)
    (st : EngSt) (pin : Int) (b : Bool)
    (h : dictGet st.s_state pin = some b) :
    digital_poll_pin_b base pub wr st pin b = (st, []) := by
  rw [digital_poll_pin_b, if_neg]
  push_neg
  exact ⟨by simp [h], by simp [h]⟩

/-- On a transition, the step is the publish attempt followed by the
failsafe block run on the post-publish state. -/
theorem digital_poll_pin_b_transition (base : String)
    (pub : String → String → Bool) (wr : Int → Nat → Option Nat)
    (st : EngSt) (pin : Int) (b : Bool)
    (htrans : dictGet st.s_state pin ≠ some b) :
    digital_poll_pin_b base pub wr st pin b =
      ((failsafe_mirror wr (safe_publish pub { st with s_state := dictInsert st.s_state pin b } (s_state_topic base pin) (on_off b)).1 pin b).1,
       (safe_publish pub { st with s_state := dictInsert st.s_state pin b } (s_state_topic base pin) (on_off b)).2 ++
       (failsafe_mirror wr (safe_publish pub { st with s_state := dictInsert st.s_state pin b } (s_state_topic base pin) (on_off b)).1 pin b).2) := by
  rw [digital_poll_pin_b, if_pos (Or.inr htrans)]

theorem digital_poll_pin_b_online_ok (base : String)
    (pub : String → String → Bool) (wr : Int → Nat → Option Nat)
    (st : EngSt) (pin : Int) (b : Bool)
    (hon : st.mqtt_online = true)
    (hok : pub (s_state_topic base pin) (on_off b) = true)
    (htrans : dictGet st.s_state pin ≠ some b) :
    digital_poll_pin_b base pub wr st pin b =
      ({ st with s_state := dictInsert st.s_state pin b },
       [Ev.publish (s_state_topic base pin) (on_off b) true]) := by
  rw [digital_poll_pin_b_transition base pub wr st pin b htrans,
    safe_publish_online_ok pub _ _ _ (show ({ st with s_state := dictInsert st.s_state pin b } : EngSt).mqtt_online = true from hon) hok]
  dsimp only
  rw [failsafe_mirror_online wr _ pin b (show ({ st with s_state := dictInsert st.s_state pin b } : EngSt).mqtt_online = true from hon)]
  simp

theorem digital_poll_pin_b_offline_unmapped (base : String)
    (pub : String → String → Bool) (wr : Int → Nat → Option Nat)
    (st : EngSt) (pin : Int) (b : Bool)
    (hoff : st.mqtt_online = false)
    (htrans : dictGet st.s_state pin ≠ some b)
    (hm : dictGet st.failsafe_map pin = none) :
    digital_poll_pin_b base pub wr st pin b =
      ({ st with s_state := dictInsert st.s_state pin b }, []) := by
  rw [digital_poll_pin_b_transition base pub wr st pin b htrans,
    safe_publish_offline pub _ _ _ (show ({ st with s_state := dictInsert st.s_state pin b } : EngSt).mqtt_online = false from hoff)]
  dsimp only
  rw [failsafe_mirror_unmapped wr _ pin b (show ({ st with s_state := dictInsert st.s_state pin b } : EngSt).mqtt_online = false from hoff) hm]
  rfl

theorem digital_poll_pin_b_offline_already_equal (base : String)
    (pub : String → String → Bool) (wr : Int → Nat → Option Nat)
    (st : EngSt) (pin p_pin : Int) (b : Bool)
    (hoff : st.mqtt_online = false)
    (htrans : dictGet st.s_state pin ≠ some b)
    (hm : dictGet st.failsafe_map pin = some p_pin)
    (heq : dictGet st.p_state p_pin = some b) :
    digital_poll_pin_b base pub wr st pin b =
      ({ st with s_state := dictInsert st.s_state pin b }, []) := by
  rw [digital_poll_pin_b_transition base pub wr st pin b htrans,
    safe_publish_offline pub _ _ _ (show ({ st with s_state := dictInsert st.s_state pin b } : EngSt).mqtt_online = false from hoff)]
  dsimp only
  rw [failsafe_mirror_already_equal wr _ pin p_pin b (show ({ st with s_state := dictInsert st.s_state pin b } : EngSt).mqtt_online = false from hoff) hm heq]
  rfl

theorem digital_poll_pin_b_failsafe_write_fails (base : String)
    (pub : String → String → Bool) (wr : Int → Nat → Option Nat)
    (st : EngSt) (pin p_pin : Int) (b : Bool)
    (hoff : st.mqtt_online = false)
    (htrans : dictGet st.s_state pin ≠ some b)
    (hm : dictGet st.failsafe_map pin = some p_pin)
    (hdiff : dictGet st.p_state p_pin ≠ some b)
    (hw : wr p_pin (if b then 1 else 0) = none) :
    digital_poll_pin_b base pub wr st pin b =
      ({ st with s_state := dictInsert st.s_state pin b }, []) := by
  rw [digital_poll_pin_b_transition base pub wr st pin b htrans,
    safe_publish_offline pub _ _ _ (show ({ st with s_state := dictInsert st.s_state pin b } : EngSt).mqtt_online = false from hoff)]
  dsimp only
  rw [failsafe_mirror_write_fails wr _ pin p_pin b (show ({ st with s_state := dictInsert st.s_state pin b } : EngSt).mqtt_online = false from hoff) hm hdiff hw]
  rfl

theorem digital_poll_pin_b_failsafe_eq (base : String)
    (pub : String → String → Bool) (wr : Int → Nat → Option Nat)
    (st : EngSt) (pin p_pin : Int) (b : Bool) (resp : Nat)
    (hoff : st.mqtt_online = false)
    (htrans : dictGet st.s_state pin ≠ some b)
    (hm : dictGet st.failsafe_map pin = some p_pin)
    (hdiff : dictGet st.p_state p_pin ≠ some b)
    (hw : wr p_pin (if b then 1 else 0) = some resp) :
    digital_poll_pin_b base pub wr st pin b =
      ({ st with s_state := dictInsert st.s_state pin b,
                 p_state := dictInsert st.p_state p_pin
                   (if resp = 3333 then true else false) },
       [Ev.write p_pin (if b then 1 else 0) resp,
        Ev.save (dictInsert st.p_state p_pin
          (if resp = 3333 then true else false))]) := by
  rw [digital_poll_pin_b_transition base pub wr st pin b htrans,
    safe_publish_offline pub _ _ _ (show ({ st with s_state := dictInsert st.s_state pin b } : EngSt).mqtt_online = false from hoff)]
  dsimp only
  rw [failsafe_mirror_write wr _ pin p_pin b resp (show ({ st with s_state := dictInsert st.s_state pin b } : EngSt).mqtt_online = false from hoff) hm hdiff hw]
  rfl

/-! ### Claim C1: OutputState records the board's reply, never the request -/

/-- C1: for every digital write issued by the engine — restore-on-start, a
broker command, or a failsafe mirror — the value recorded in OutputState
for the target pin is the ON/OFF interpretation of the two-byte reply
(true iff it equals 3333), independent of the requested state, and any
`<base>/P<n>/state` payload published by that step renders exactly the
recorded value (the failsafe site, which runs offline, publishes
nothing at all). -/
theorem output_state_matches_reply (base : String)
    (pub : String → String → Bool) (wr : Int → Nat → Option Nat)
    (st : EngSt) (pin : Int) (resp : Nat) :
    (∀ saved : Bool, pin ∈ P_PINS →
      wr pin (if saved then 1 else 0) = some resp →
      dictGet (restore_pin base pub wr st pin saved).1.p_state pin =
          some (if resp = 3333 then true else false) ∧
      ∀ pl r, Ev.publish (p_state_topic base pin) pl r ∈
          (restore_pin base pub wr st pin saved).2 →
        pl = on_off (if resp = 3333 then true else false)) ∧
    (∀ code : Nat,
      dictGet (run_command base pub st pin code resp).1.p_state pin =
          some (if resp = 3333 then true else false) ∧
      ∀ pl r, Ev.publish (p_state_topic base pin) pl r ∈
          (run_command base pub st pin code resp).2 →
        pl = on_off (if resp = 3333 then true else false)) ∧
    (∀ s_pin val, st.mqtt_online = false →
      dictGet st.s_state s_pin ≠ some (if val = 1111 then true else false) →
      dictGet st.failsafe_map s_pin = some pin →
      dictGet st.p_state pin ≠ some (if val = 1111 then true else false) →
      wr pin (if (if val = 1111 then true else false) then 1 else 0) = some resp →
      dictGet (digital_poll_pin base pub wr st s_pin val).1.p_state pin =
          some (if resp = 3333 then true else false) ∧
      ∀ t pl r, Ev.publish t pl r ∉ (digital_poll_pin base pub wr st s_pin val).2) := by
  refine ⟨?_, ?_, ?_⟩
  · intro saved hp hw
    rw [restore_pin, if_neg (not_not_intro hp), hw]
    constructor
    · rw [safe_publish_p_state]
      exact dictGet_dictInsert_self _ _ _
    · intro pl r hmem
      rcases List.mem_cons.mp hmem with heq | hmem2
      · simp at heq
      · have h2 := safe_publish_mem _ _ _ _ _ hmem2
        injection h2 with ht hp2 hr
  · intro code
    rw [run_command]
    constructor
    · rw [safe_publish_p_state]
      exact dictGet_dictInsert_self _ _ _
    · intro pl r hmem
      rcases List.mem_cons.mp hmem with heq | hmem2
      · simp at heq
      · rcases List.mem_append.mp hmem2 with hpub | hsave
        · have h2 := safe_publish_mem _ _ _ _ _ hpub
          injection h2 with ht hp2 hr
        · simp at hsave
  · intro s_pin val hoff htrans hmap hdiff hw
    rw [digital_poll_pin,
        digital_poll_pin_b_failsafe_eq base pub wr st s_pin pin _ resp
          hoff htrans hmap hdiff hw]
    constructor
    · exact dictGet_dictInsert_self _ _ _
    · intro t pl r hmem
      simp at hmem

/-- Witness for `output_state_matches_reply`: restore of pin 18, a TOGGLE
command for pin 18, and the failsafe mirror S30→P18, all acknowledged with
reply 3333. -/
theorem output_state_matches_reply_witness :
    dictGet (restore_pin "arduino" (fun _ _ => true) (fun _ _ => some 3333)
        ⟨[], [], [], false, [(30, 18)]⟩ 18 true).1.p_state 18 =
      some (if 3333 = 3333 then true else false) ∧
    dictGet (run_command "arduino" (fun _ _ => true)
        ⟨[], [], [], false, [(30, 18)]⟩ 18 2 3333).1.p_state 18 =
      some (if 3333 = 3333 then true else false) ∧
    dictGet (digital_poll_pin "arduino" (fun _ _ => true)
        (fun _ _ => some 3333)
        ⟨[], [], [], false, [(30, 18)]⟩ 30 1111).1.p_state 18 =
      some (if 3333 = 3333 then true else false) := by
  obtain ⟨h1, h2, h3⟩ := output_state_matches_reply "arduino"
    (fun _ _ => true) (fun _ _ => some 3333)
    ⟨[], [], [], false, [(30, 18)]⟩ 18 3333
  exact ⟨(h1 true (by decide) rfl).1, (h2 2).1,
    (h3 30 1111 rfl (by decide) (by decide) (by decide) rfl).1⟩

/-! ### Claim C2: unrecognised command payloads -/

/-- C2 counterexample: a payload outside the truthy/falsy sets on a valid
command topic does leave OutputState and the state file untouched, but it
does not let the engine continue in the same broker mode: the `ValueError`
raised by `as_bool` escapes the message loop, the consumer flips MQTT
offline and the following message (a valid "on" command) is never
consumed. -/
theorem commands_bad_payload_goes_offline_cex :
    commands_consume "arduino" (fun _ _ => true) (fun _ _ => some 3333)
        ⟨[], [], [], true, []⟩
        [("arduino/P22/set", "banana"), ("arduino/P22/set", "on")] =
      .ok (⟨[], [], [], false, []⟩, []) := by decide

/-- C2 (amended): a command payload on a valid `<base>/P<n>/set` topic with
`n` in the catalog that is neither "TOGGLE" nor in the truthy/falsy sets
causes no DigitalWrite, no OutputState change and no state-file save — but
the `ValueError` from `as_bool` escapes the message loop: the worker logs
it, switches BrokerMode to Offline and abandons the remaining messages,
re-entering the reconnect path, instead of continuing in the same broker
mode. -/
theorem commands_bad_payload_goes_offline (base topic payload : String)
    (pub : String → String → Bool) (wr : Int → Nat → Option Nat)
    (st : EngSt) (rest : List (String × String)) (pin : Int)
    (htopic : parse_set_topic base topic = some (.ok pin))
    (hpin : pin ∈ P_PINS)
    (htog : pyUpper (pyStrip payload) ≠ "TOGGLE")
    (hbool : as_bool (pyStrip payload) = none) :
    commands_consume base pub wr st ((topic, payload) :: rest) =
      .ok ({ st with mqtt_online := false }, []) := by
  have hproc : process_message base topic payload = CmdAct.fail := by
    simp only [process_message, htopic]
    rw [command_decision, if_neg (not_not_intro hpin)]
    dsimp only
    rw [if_neg htog, hbool]
  rw [commands_consume, hproc]

/-- Witness for `commands_bad_payload_goes_offline` at topic
`arduino/P22/set`, payload `"banana"`. -/
theorem commands_bad_payload_goes_offline_witness :
    commands_consume "arduino" (fun _ _ => true) (fun _ _ => some 4444)
        ⟨[], [(22, true)], [], true, []⟩
        [("arduino/P22/set", "banana")] =
      .ok ({ (⟨[], [(22, true)], [], true, []⟩ : EngSt) with
              mqtt_online := false }, []) :=
  commands_bad_payload_goes_offline "arduino" "arduino/P22/set" "banana"
    (fun _ _ => true) (fun _ _ => some 4444)
    ⟨[], [(22, true)], [], true, []⟩ [] 22
    (by decide) (by decide) (by decide) (by decide)

/-! ### Claim C3: ordering of reply, publish and save -/

def Ev.isWrite : Ev → Bool
  | .write _ _ _ => true
  | _ => false

def Ev.isPublish : Ev → Bool
  | .publish _ _ _ => true
  | _ => false

def Ev.isSave : Ev → Bool
  | .save _ => true
  | _ => false

/-- C3 counterexample: for the accepted command P22←HIGH acknowledged with
3333 while online, the handler's event sequence is write-reply, publish,
save — the retained publish comes strictly BEFORE the state-store save,
not after it. -/
theorem command_publish_precedes_save_cex :
    ((run_command "arduino" (fun _ _ => true)
        ⟨[], [], [], true, []⟩ 22 1 3333).2 =
      [Ev.write 22 1 3333,
       Ev.publish "arduino/P22/state" "ON" true,
       Ev.save [(22, true)]]) ∧
    ¬ ((run_command "arduino" (fun _ _ => true)
          ⟨[], [], [], true, []⟩ 22 1 3333).2.findIdx Ev.isSave <
        (run_command "arduino" (fun _ _ => true)
          ⟨[], [], [], true, []⟩ 22 1 3333).2.findIdx Ev.isPublish) := by
  decide

/-- C3 (amended): for every accepted command, the retained
`<base>/P<n>/state` publish occurs strictly after the board's reply
acknowledging the write and strictly BEFORE the state-store save; the
durable write never precedes the publish. -/
theorem command_publish_after_reply_before_save (base : String)
    (pub : String → String → Bool) (st : EngSt)
    (pin : Int) (code resp : Nat) :
    ∀ (i j : Nat) (ei ej : Ev),
      (run_command base pub st pin code resp).2[i]? = some ei →
      (run_command base pub st pin code resp).2[j]? = some ej →
      ei.isPublish = true →
      (ej.isWrite = true → j < i) ∧ (ej.isSave = true → i < j) := by
  cases hon : st.mqtt_online with
  | true =>
    have hevs : (run_command base pub st pin code resp).2 =
        [Ev.write pin code resp,
         Ev.publish (p_state_topic base pin)
           (on_off (if resp = 3333 then true else false)) true,
         Ev.save (dictInsert st.p_state pin
           (if resp = 3333 then true else false))] := by
      rw [run_command]
      dsimp only
      rw [safe_publish_snd_online pub _ _ _ (show ({ st with p_state := dictInsert st.p_state pin (if resp = 3333 then true else false) } : EngSt).mqtt_online = true from hon)]
      rfl
    rw [hevs]
    intro i j ei ej hi hj hpub
    rcases i with _ | _ | _ | i <;> rcases j with _ | _ | _ | j <;>
      simp only [List.getElem?_cons_zero, List.getElem?_cons_succ,
        List.getElem?_nil, Option.some.injEq] at hi hj <;>
      (try cases hi) <;> (try cases hj) <;>
      simp_all [Ev.isPublish, Ev.isWrite, Ev.isSave]
  | false =>
    have hevs : (run_command base pub st pin code resp).2 =
        [Ev.write pin code resp,
         Ev.save (dictInsert st.p_state pin
           (if resp = 3333 then true else false))] := by
      rw [run_command]
      dsimp only
      rw [safe_publish_offline pub _ _ _ (show ({ st with p_state := dictInsert st.p_state pin (if resp = 3333 then true else false) } : EngSt).mqtt_online = false from hon)]
      rfl
    rw [hevs]
    intro i j ei ej hi hj hpub
    rcases i with _ | _ | i <;> rcases j with _ | _ | j <;>
      simp only [List.getElem?_cons_zero, List.getElem?_cons_succ,
        List.getElem?_nil, Option.some.injEq] at hi hj <;>
      (try cases hi) <;> (try cases hj) <;>
      simp_all [Ev.isPublish, Ev.isWrite, Ev.isSave]

/-- Witness for `command_publish_after_reply_before_save`: the publish at
index 1 is after the write-reply at index 0 and before the save at
index 2. -/
theorem command_publish_after_reply_before_save_witness :
    (0 < 1 ∧ (1 : Nat) < 2) := by
  obtain ⟨hw, -⟩ := command_publish_after_reply_before_save "arduino"
    (fun _ _ => true) ⟨[], [], [], true, []⟩ 22 1 3333 1 0
    (Ev.publish "arduino/P22/state" "ON" true) (Ev.write 22 1 3333)
    (by decide) (by decide) (by decide)
  obtain ⟨-, hs⟩ := command_publish_after_reply_before_save "arduino"
    (fun _ _ => true) ⟨[], [], [], true, []⟩ 22 1 3333 1 2
    (Ev.publish "arduino/P22/state" "ON" true) (Ev.save [(22, true)])
    (by decide) (by decide) (by decide)
  exact ⟨hw (by decide), hs (by decide)⟩

/-! ### Claim C4: the failsafe mirror activates only while Offline -/

/-- C4: the failsafe mirror activates iff the broker is offline, where
"offline" is BrokerMode at the failsafe block's own guard (service.py
line 281).  Concretely: (i) any poll step that issues a failsafe write
ends with BrokerMode=Offline, and if the step began Online the write was
only possible because the step's own S-state publish had failed and
flipped the mode to Offline beforehand (lines 134-136); (ii) while the
broker stays Online — the publish attempt succeeds — no failsafe write
ever occurs; (iii) a single observed transition causes at most one
DigitalWrite; (iv) while Offline, a transition on a mapped input pin
whose paired output differs from the new input value causes exactly one
DigitalWrite of that value to the paired pin; and (v) none when the
paired output already matches. -/
theorem failsafe_iff_offline (base : String) (pub : String → String → Bool)
    (wr : Int → Nat → Option Nat) (st : EngSt) (pin : Int) (val : Nat) :
    (∀ e ∈ (digital_poll_pin base pub wr st pin val).2, e.isWrite = true →
      (digital_poll_pin base pub wr st pin val).1.mqtt_online = false ∧
      (st.mqtt_online = true →
        pub (s_state_topic base pin)
          (on_off (if val = 1111 then true else false)) = false)) ∧
    (st.mqtt_online = true →
      pub (s_state_topic base pin)
        (on_off (if val = 1111 then true else false)) = true →
      (digital_poll_pin base pub wr st pin val).2.filter Ev.isWrite = []) ∧
    ((digital_poll_pin base pub wr st pin val).2.filter Ev.isWrite).length ≤ 1 ∧
    (∀ p_pin resp, st.mqtt_online = false →
      dictGet st.s_state pin ≠ some (if val = 1111 then true else false) →
      dictGet st.failsafe_map pin = some p_pin →
      dictGet st.p_state p_pin ≠ some (if val = 1111 then true else false) →
      wr p_pin (if (if val = 1111 then true else false) then 1 else 0) =
        some resp →
      (digital_poll_pin base pub wr st pin val).2.filter Ev.isWrite =
        [Ev.write p_pin
          (if (if val = 1111 then true else false) then 1 else 0) resp]) ∧
    (∀ p_pin, st.mqtt_online = false →
      dictGet st.failsafe_map pin = some p_pin →
      dictGet st.p_state p_pin = some (if val = 1111 then true else false) →
      (digital_poll_pin base pub wr st pin val).2.filter Ev.isWrite = []) := by
  refine ⟨?_, ?_, ?_, ?_, ?_⟩
  · intro e he hwr
    by_cases htr : dictGet st.s_state pin =
        some (if val = 1111 then true else false)
    · rw [digital_poll_pin,
        digital_poll_pin_b_no_transition base pub wr st pin _ htr] at he
      simp at he
    · rw [digital_poll_pin,
        digital_poll_pin_b_transition base pub wr st pin _ htr] at he ⊢
      rcases List.mem_append.mp he with hsp | hfs
      · rw [safe_publish_mem _ _ _ _ _ hsp] at hwr
        simp [Ev.isWrite] at hwr
      · rcases failsafe_mirror_cases wr ((safe_publish pub { st with s_state := dictInsert st.s_state pin (if val = 1111 then true else false) } (s_state_topic base pin) (on_off (if val = 1111 then true else false))).1) pin (if val = 1111 then true else false) with
          hfm | ⟨hoff2, p_pin, resp, hm, hdiff, hw2, hfm⟩
        · rw [hfm] at hfs
          simp at hfs
        · constructor
          · rw [hfm]
            exact hoff2
          · intro hon
            exact (safe_publish_mode_online pub _ _ _ (show ({ st with s_state := dictInsert st.s_state pin (if val = 1111 then true else false) } : EngSt).mqtt_online = true from hon)).symm.trans hoff2
  · intro hon hok
    by_cases htr : dictGet st.s_state pin =
        some (if val = 1111 then true else false)
    · rw [digital_poll_pin,
        digital_poll_pin_b_no_transition base pub wr st pin _ htr]
      rfl
    · rw [digital_poll_pin,
        digital_poll_pin_b_online_ok base pub wr st pin _ hon hok htr]
      rfl
  · by_cases htr : dictGet st.s_state pin =
        some (if val = 1111 then true else false)
    · rw [digital_poll_pin,
        digital_poll_pin_b_no_transition base pub wr st pin _ htr]
      simp
    · rw [digital_poll_pin,
        digital_poll_pin_b_transition base pub wr st pin _ htr]
      rw [List.filter_append, List.length_append]
      have h1 : ((safe_publish pub { st with s_state := dictInsert st.s_state pin (if val = 1111 then true else false) } (s_state_topic base pin) (on_off (if val = 1111 then true else false))).2.filter Ev.isWrite) = [] := by
        rw [List.filter_eq_nil_iff]
        intro e he
        rw [safe_publish_mem _ _ _ _ _ he]
        simp [Ev.isWrite]
      rw [h1]
      rcases failsafe_mirror_cases wr ((safe_publish pub { st with s_state := dictInsert st.s_state pin (if val = 1111 then true else false) } (s_state_topic base pin) (on_off (if val = 1111 then true else false))).1) pin (if val = 1111 then true else false) with
        hfm | ⟨_, p_pin, resp, _, _, _, hfm⟩ <;> rw [hfm] <;> simp [Ev.isWrite]
  · intro p_pin resp hoff htr hm hdiff hw
    rw [digital_poll_pin,
      digital_poll_pin_b_failsafe_eq base pub wr st pin p_pin _ resp
        hoff htr hm hdiff hw]
    simp [Ev.isWrite]
  · intro p_pin hoff hm heq
    by_cases htr : dictGet st.s_state pin =
        some (if val = 1111 then true else false)
    · rw [digital_poll_pin,
        digital_poll_pin_b_no_transition base pub wr st pin _ htr]
      rfl
    · rw [digital_poll_pin, digital_poll_pin_b_offline_already_equal
        base pub wr st pin p_pin _ hoff htr hm heq]
      rfl

/-- Witness for `failsafe_iff_offline`: map S30→P18.  Online with a
successful publish: no write; online with a failing publish: the step
that wrote ends Offline; offline: exactly the mirroring write; offline
with P18 already matching: no write. -/
theorem failsafe_iff_offline_witness :
    (digital_poll_pin "arduino" (fun _ _ => true) (fun _ _ => some 3333)
      ⟨[], [], [], true, [(30, 18)]⟩ 30 1111).2.filter Ev.isWrite = [] ∧
    (digital_poll_pin "arduino" (fun _ _ => false) (fun _ _ => some 3333)
      ⟨[], [], [], true, [(30, 18)]⟩ 30 1111).1.mqtt_online = false ∧
    (digital_poll_pin "arduino" (fun _ _ => true) (fun _ _ => some 3333)
      ⟨[], [], [], false, [(30, 18)]⟩ 30 1111).2.filter Ev.isWrite =
      [Ev.write 18 (if (if (1111 : Nat) = 1111 then true else false)
        then 1 else 0) 3333] ∧
    (digital_poll_pin "arduino" (fun _ _ => true) (fun _ _ => some 3333)
      ⟨[], [(18, true)], [], false, [(30, 18)]⟩ 30 1111).2.filter
        Ev.isWrite = [] := by
  refine ⟨?_, ?_, ?_, ?_⟩
  · exact (failsafe_iff_offline "arduino" (fun _ _ => true)
      (fun _ _ => some 3333) ⟨[], [], [], true, [(30, 18)]⟩ 30 1111).2.1
      rfl rfl
  · exact ((failsafe_iff_offline "arduino" (fun _ _ => false)
      (fun _ _ => some 3333) ⟨[], [], [], true, [(30, 18)]⟩ 30 1111).1
      (Ev.write 18 1 3333) (by decide) (by decide)).1
  · exact (failsafe_iff_offline "arduino" (fun _ _ => true)
      (fun _ _ => some 3333) ⟨[], [], [], false, [(30, 18)]⟩ 30 1111).2.2.2.1
      18 3333 rfl (by decide) (by decide) (by decide) rfl
  · exact (failsafe_iff_offline "arduino" (fun _ _ => true)
      (fun _ _ => some 3333)
      ⟨[], [(18, true)], [], false, [(30, 18)]⟩ 30 1111).2.2.2.2
      18 rfl (by decide) (by decide)

/-! ### Claim C5: change-only publishing -/

/-- C5: for an S-pin observed online with a fresh or changed value, the
sweep step publishes exactly once, and a second consecutive observation of
the same value publishes nothing; for an A-channel with a prior cached
value, a delta below the threshold publishes nothing and leaves the cached
AnalogState unchanged. -/
theorem change_only_publish (base : String) (pub : String → String → Bool)
    (wr : Int → Nat → Option Nat)
    (st : EngSt) (pin : Int) (val : Nat) (thr : Int) (ch v prev : Int)
    (hon : st.mqtt_online = true)
    (hnew : dictGet st.s_state pin ≠
      some (if val = 1111 then true else false)) :
    ((digital_poll_pin base pub wr st pin val).2.filter Ev.isPublish).length = 1 ∧
    (digital_poll_pin base pub wr (digital_poll_pin base pub wr st pin val).1
      pin val).2 = [] ∧
    (dictGet st.a_state ch = some prev → |v - prev| < thr →
      analog_poll_chan base pub thr st ch v = (st, [])) := by
  refine ⟨?_, ?_, ?_⟩
  · rw [digital_poll_pin,
      digital_poll_pin_b_transition base pub wr st pin _ hnew,
      List.filter_append,
      safe_publish_snd_online pub _ _ _ (show ({ st with s_state := dictInsert st.s_state pin (if val = 1111 then true else false) } : EngSt).mqtt_online = true from hon)]
    rcases failsafe_mirror_cases wr ((safe_publish pub { st with s_state := dictInsert st.s_state pin (if val = 1111 then true else false) } (s_state_topic base pin) (on_off (if val = 1111 then true else false))).1) pin (if val = 1111 then true else false) with
      hfm | ⟨_, p_pin, resp, _, _, _, hfm⟩ <;> rw [hfm] <;> simp [Ev.isPublish]
  · have hs : (digital_poll_pin base pub wr st pin val).1.s_state
        = dictInsert st.s_state pin (if val = 1111 then true else false) := by
      rw [digital_poll_pin,
        digital_poll_pin_b_transition base pub wr st pin _ hnew]
      rcases failsafe_mirror_cases wr ((safe_publish pub { st with s_state := dictInsert st.s_state pin (if val = 1111 then true else false) } (s_state_topic base pin) (on_off (if val = 1111 then true else false))).1) pin (if val = 1111 then true else false) with
        hfm | ⟨_, p_pin, resp, _, _, _, hfm⟩ <;> rw [hfm] <;>
        exact safe_publish_s_state pub _ _ _
    rw [digital_poll_pin]
    exact congrArg Prod.snd (digital_poll_pin_b_no_transition base pub wr _
      pin _ (by rw [hs]; exact dictGet_dictInsert_self _ _ _))
  · intro hprev hlt
    rw [analog_poll_chan]
    dsimp only
    rw [hprev]
    dsimp only
    rw [if_neg]
    simp only [decide_eq_true_eq]
    exact not_le.mpr hlt

/-- Witness for `change_only_publish`: S38 goes HIGH online; A3 cached at
100 reads 103 with threshold 5. -/
theorem change_only_publish_witness :
    ((digital_poll_pin "arduino" (fun _ _ => true) (fun _ _ => some 3333)
        ⟨[], [], [(3, 100)], true, []⟩ 38 1111).2.filter
          Ev.isPublish).length = 1 ∧
    (digital_poll_pin "arduino" (fun _ _ => true) (fun _ _ => some 3333)
      (digital_poll_pin "arduino" (fun _ _ => true) (fun _ _ => some 3333)
        ⟨[], [], [(3, 100)], true, []⟩ 38 1111).1 38 1111).2 = [] ∧
    analog_poll_chan "arduino" (fun _ _ => true) 5
        ⟨[], [], [(3, 100)], true, []⟩ 3 103 =
      (⟨[], [], [(3, 100)], true, []⟩, []) := by
  obtain ⟨h1, h2, h3⟩ := change_only_publish "arduino" (fun _ _ => true)
    (fun _ _ => some 3333)
    ⟨[], [], [(3, 100)], true, []⟩ 38 1111 5 3 103 100 rfl (by decide)
  exact ⟨h1, h2, h3 (by decide) (by decide)⟩

/-! ### Claim C8: reserved process exit codes -/

/-- C8: a failed handshake at startup exits with code 2; a transactor
error in the digital poll sweep raises exit code 4; one in the analog poll
sweep raises exit code 5; and the command worker never exits — any fault
is downgraded to drop-and-continue (offline), so exit code 3 is never
produced. -/
theorem reserved_exit_codes (base : String) (pub : String → String → Bool)
    (cfg_thr : Int) (rd : Int → Option Nat) (ra : Int → Option Int)
    (wr : Int → Nat → Option Nat) (st : EngSt) :
    start_handshake_check false = .error 2 ∧
    start_handshake_check true = .ok () ∧
    (rd 38 = none → digital_poll_sweep base pub rd wr st = .error 4) ∧
    (ra 0 = none → analog_poll_sweep base pub cfg_thr ra st = .error 5) ∧
    (∀ msgs, (commands_consume base pub wr st msgs).isOk = true) := by
  refine ⟨rfl, rfl, ?_, ?_, ?_⟩
  · intro h
    rw [digital_poll_sweep,
      show S_PINS = 38 :: [40,42,44,46,48,50,52,53,39,37,35,33,31,29,27]
        from rfl,
      digital_poll_sweep_go, h]
  · intro h
    rw [analog_poll_sweep,
      show A_CHANS = 0 :: [1,2,3,4,5,6,7,8,9,10,11,12,13,14,15] from rfl,
      analog_poll_sweep_go, h]
  · intro msgs
    induction msgs generalizing st with
    | nil => rfl
    | cons m rest ih =>
      obtain ⟨topic, payload⟩ := m
      rw [commands_consume]
      cases hp : process_message base topic payload with
      | skip => exact ih st
      | fail => rfl
      | writeCmd pin code =>
        dsimp only
        cases hw : wr pin code with
        | none => rfl
        | some resp =>
          dsimp only
          have := ih (run_command base pub st pin code resp).1
          cases hc : commands_consume base pub wr
              (run_command base pub st pin code resp).1 rest with
          | ok res => rfl
          | error n =>
            rw [hc] at this
            exact absurd this (by simp [Except.isOk, Except.toBool])

/-- Witness for `reserved_exit_codes`: a board whose reads all fail and a
single valid command. -/
theorem reserved_exit_codes_witness :
    start_handshake_check false = .error 2 ∧
    digital_poll_sweep "arduino" (fun _ _ => true) (fun _ => none)
      (fun _ _ => some 3333) ⟨[], [], [], true, []⟩ = .error 4 ∧
    analog_poll_sweep "arduino" (fun _ _ => true) 5 (fun _ => none)
      ⟨[], [], [], true, []⟩ = .error 5 ∧
    (commands_consume "arduino" (fun _ _ => true) (fun _ _ => some 3333)
      ⟨[], [], [], true, []⟩ [("arduino/P22/set", "on")]).isOk = true := by
  obtain ⟨h1, -, h3, h4, h5⟩ := reserved_exit_codes "arduino"
    (fun _ _ => true) 5 (fun _ => none) (fun _ => none)
    (fun _ _ => some 3333) (⟨[], [], [], true, []⟩ : EngSt)
  exact ⟨h1, h3 rfl, h4 rfl, h5 _⟩

/-! ### Claim C10: only catalog pins are ever driven -/

/-- C10: a saved state-file entry whose pin is outside `P_PINS` is skipped
by restore-on-start with no write and no state change, and a
`<base>/P<n>/set` command whose parsed pin is outside `P_PINS` is skipped
by the Commands loop, which continues with the remaining messages
unchanged. -/
theorem non_catalog_pins_skipped (base topic payload : String)
    (pub : String → String → Bool) (st : EngSt)
    (wr : Int → Nat → Option Nat) (pin : Int) (saved : Bool)
    (rest : List (String × String))
    (hpin : pin ∉ P_PINS) :
    restore_pin base pub wr st pin saved = (st, []) ∧
    (parse_set_topic base topic = some (.ok pin) →
      commands_consume base pub wr st ((topic, payload) :: rest) =
        commands_consume base pub wr st rest) := by
  constructor
  · rw [restore_pin, if_pos hpin]
  · intro htopic
    have hproc : process_message base topic payload = CmdAct.skip := by
      simp only [process_message, htopic]
      rw [command_decision, if_pos hpin]
    rw [commands_consume, hproc]

/-- Witness for `non_catalog_pins_skipped` at pin 99. -/
theorem non_catalog_pins_skipped_witness :
    restore_pin "arduino" (fun _ _ => true) (fun _ _ => some 3333)
      ⟨[], [], [], true, []⟩ 99 true = (⟨[], [], [], true, []⟩, []) ∧
    commands_consume "arduino" (fun _ _ => true) (fun _ _ => some 3333)
        ⟨[], [], [], true, []⟩ [("arduino/P99/set", "on")] =
      commands_consume "arduino" (fun _ _ => true) (fun _ _ => some 3333)
        ⟨[], [], [], true, []⟩ [] := by
  obtain ⟨h1, h2⟩ := non_catalog_pins_skipped "arduino" "arduino/P99/set"
    "on" (fun _ _ => true) ⟨[], [], [], true, []⟩ (fun _ _ => some 3333)
    99 true [] (by decide)
  exact ⟨h1, h2 (by decide)⟩
